import Mathlib

/-!
Shallow embedding of the availability-recovery subsystem of the
`montekki/polkadot` snapshot (node-side availability recovery plus the
node primitives module), together with proofs of the specification
claims about it.

The repository snapshot ships the recovery subsystem's test harness
(`node/network/availability-recovery/src/tests.rs`) and the node
primitives module (`node/primitives/src/lib.rs`); the production body of
the recovery subsystem itself is not part of the snapshot.  Definitions
embedding the primitives module and the test-pinned interaction traces
are translated from those sources; the Recovery Task / Subsystem state
machine is modelled from the specification, as marked on each such
definition.
-/

namespace Spec2Proof

/-! ## Basic identifier types

Hashes, validator identities, peer ids and session indices are opaque
identifiers in the source; they are modelled as natural numbers. -/

abbrev Hash := Nat
abbrev ValidatorId := Nat
abbrev AuthorityDiscoveryId := Nat
abbrev SessionIndex := Nat
abbrev ValidatorIndex := Nat
abbrev CandidateHash := Nat
abbrev ValidatorSignature := Nat
abbrev SigningContext := Nat

/-! ## Node primitives (`node/primitives/src/lib.rs`)

`AbridgedCandidateReceipt`, its hash, the hash-based runtime `Statement`
payload encoding and the signature scheme live in external crates
(`polkadot-primitives`, `sp-runtime`); they are consumed as opaque
capabilities collected in `PrimEnv`. -/

structure AbridgedCandidateReceipt where
  data : List Nat
deriving DecidableEq, Repr

/-- The hash-based statement type of `polkadot_primitives::parachain::Statement`,
target of the conversion in `Statement::signing_payload`. -/
inductive PrimStatement where
  | Candidate (h : Hash)
  | Valid (h : Hash)
  | Invalid (h : Hash)
deriving DecidableEq, Repr

/-- External capabilities used by the node primitives module:
the receipt hash function, the runtime statement payload encoder, and
signature verification (`AppVerify`). -/
structure PrimEnv where
  hashACR : AbridgedCandidateReceipt → Hash
  primSigningPayload : PrimStatement → SigningContext → List Nat
  verifySig : ValidatorSignature → List Nat → ValidatorId → Bool

/-- `Statement` from `node/primitives/src/lib.rs`: the candidate receipt is
included in the `Seconded` variant. -/
inductive Statement where
  | Seconded (c : AbridgedCandidateReceipt)
  | Valid (h : Hash)
  | Invalid (h : Hash)
deriving DecidableEq, Repr

/-- `Statement::signing_payload`: convert to the fully hash-based runtime
statement (`Seconded c ↦ Candidate (hash c)`) and take its payload. -/
def Statement.signing_payload (env : PrimEnv) (s : Statement)
    (context : SigningContext) : List Nat :=
  match s with
  | .Seconded c => env.primSigningPayload (.Candidate (env.hashACR c)) context
  | .Valid h => env.primSigningPayload (.Valid h) context
  | .Invalid h => env.primSigningPayload (.Invalid h) context

/-- `SignedStatement` from `node/primitives/src/lib.rs`. -/
structure SignedStatement where
  statement : Statement
  signature : ValidatorSignature
  sender : ValidatorIndex
deriving Repr

/-- `SignedStatement::check_signature`: look the sender up in the validator
slice with `get` (`Option`-returning indexing), error on out of bounds,
then verify the signature over the statement payload. -/
def SignedStatement.check_signature (env : PrimEnv) (s : SignedStatement)
    (validators : List ValidatorId) (signing_context : SigningContext) :
    Except Unit Unit :=
  match validators.get? s.sender with
  | none => .error ()
  | some validator =>
      if env.verifySig s.signature
          (s.statement.signing_payload env signing_context) validator then
        .ok ()
      else
        .error ()

/-- `SignedAvailabilityBitfield` from `node/primitives/src/lib.rs`; the
bitfield is kept as its raw storage slice (`as_slice` in the source). -/
structure SignedAvailabilityBitfield where
  validator_index : ValidatorIndex
  bitfield : List Nat
  signature : ValidatorSignature
deriving Repr

/-- `SignedAvailabilityBitfield::check_signature`: `Option`-returning lookup
of the validator, error on out of bounds, then verify the signature over
the raw bitfield slice. -/
def SignedAvailabilityBitfield.check_signature (env : PrimEnv)
    (b : SignedAvailabilityBitfield) (validators : List ValidatorId) :
    Except Unit Unit :=
  match validators.get? b.validator_index with
  | none => .error ()
  | some validator =>
      if env.verifySig b.signature b.bitfield validator then .ok ()
      else .error ()

/-! ## Availability-recovery data model

`AvailableData`, `ErasureChunk` and `RecoveryError` as used by the test
harness (`node/network/availability-recovery/src/tests.rs`); byte blobs
are lists of naturals. -/

/-- `PersistedValidationData` (the fields exercised by the harness). -/
structure PersistedValidationData where
  parent_head : List Nat
  block_number : Nat
  max_pov_size : Nat
deriving DecidableEq, Repr

/-- Proof-of-validity block data. -/
structure PoV where
  block_data : List Nat
deriving DecidableEq, Repr

/-- `AvailableData`: the reconstructed payload, a persisted-validation-data
record plus the PoV blob. -/
structure AvailableData where
  validation_data : PersistedValidationData
  pov : PoV
deriving DecidableEq, Repr

/-- `ErasureChunk`: one coded fragment with its index and inclusion proof. -/
structure ErasureChunk where
  chunk : List Nat
  index : ValidatorIndex
  proof : List Nat
deriving DecidableEq, Repr

/-- `RecoveryError`: the error taxonomy surfaced to callers. -/
inductive RecoveryError where
  | Unavailable
  | InvalidErasureRoot
deriving DecidableEq, Repr

/-- `SessionInfo` (the fields the recovery path reads). -/
structure SessionInfo where
  validators : List ValidatorId
  discovery_keys : List AuthorityDiscoveryId
deriving DecidableEq, Repr

/-- The Chunk Codec capability consumed by the core: reconstruction
threshold for a validator-set size, per-chunk verification against the
erasure root, and erasure decode of an accumulated chunk set. -/
structure Codec where
  threshold : Nat → Nat
  verify : Hash → ErasureChunk → Bool
  decode : Nat → List ErasureChunk → Option AvailableData

/-! ## Recovery Task state machine (modelled from the spec)

The production body of the Recovery Task is not part of the snapshot;
the chunk-fetch loop below is modelled from the specification of the
`RequestingChunks` / `Decoding` states. -/

/-- Outcome of one bounded-time chunk request to a single validator:
a chunk, an explicit "does not have it", or a transport failure/timeout. -/
inductive ChunkResponse where
  | chunk (c : ErasureChunk)
  | noChunk
  | transportError
deriving DecidableEq, Repr

/-- Per-candidate mutable chunk-collection state: the accumulated verified
chunks and the validators marked failed for this candidate. -/
structure ChunkState where
  received : List ErasureChunk
  failed : List ValidatorIndex
deriving DecidableEq, Repr

/-- Whether a chunk with the given index is already held. -/
def hasIndex (chunks : List ErasureChunk) (i : ValidatorIndex) : Bool :=
  chunks.any (fun c => c.index == i)

/-- Modelled from the spec: one step of the `RequestingChunks` loop for the
validator just tried.  On a chunk, verify it against the erasure root; if
valid and its index not already held, add it to the accumulated set; if
invalid, discard it and mark the validator failed.  On "does not have it"
or transport failure, mark the validator failed. -/
def chunkStep (codec : Codec) (root : Hash) (st : ChunkState)
    (v : ValidatorIndex) (resp : ChunkResponse) : ChunkState :=
  match resp with
  | .chunk c =>
      if codec.verify root c then
        if hasIndex st.received c.index then st
        else { st with received := st.received ++ [c] }
      else { st with failed := st.failed ++ [v] }
  | .noChunk => { st with failed := st.failed ++ [v] }
  | .transportError => { st with failed := st.failed ++ [v] }

/-- Modelled from the spec: the `RequestingChunks` loop.  Walk the cursor
over the not-yet-tried validators, asking each at most once (the oracle
gives that validator's single bounded-time response), until the
accumulated verified-chunk count reaches the threshold or the pool of
untried validators is exhausted. -/
def chunkFetch (codec : Codec) (root : Hash) (T : Nat)
    (oracle : ValidatorIndex → ChunkResponse) :
    List ValidatorIndex → ChunkState → ChunkState
  | [], st => st
  | v :: vs, st =>
      if T ≤ st.received.length then st
      else chunkFetch codec root T oracle vs (chunkStep codec root st v (oracle v))

/-- Modelled from the spec: the session snapshot fetch of the
`FetchingSession` state — a session-index lookup for the relay parent
followed by a session-info lookup for that index. -/
def fetchSession (getIndex : Hash → Option SessionIndex)
    (getInfo : SessionIndex → Option SessionInfo)
    (relay_parent : Hash) : Option SessionInfo :=
  (getIndex relay_parent).bind getInfo

/-- The chunk state a Recovery Task ends the `RequestingChunks` phase
with, for a given session snapshot: the fetch loop run over the whole
validator set from the empty accumulated set. -/
def taskChunkState (codec : Codec) (root : Hash) (info : SessionInfo)
    (oracle : ValidatorIndex → ChunkResponse) : ChunkState :=
  chunkFetch codec root (codec.threshold info.validators.length) oracle
    (List.range info.validators.length) ⟨[], []⟩

/-- Modelled from the spec: a whole Recovery Task run for one candidate.
Fetch the session snapshot (failure is terminal `Unavailable`); run the
chunk-fetch loop over the session's validators; if the threshold was
reached, decode — decode failure resolves `InvalidErasureRoot`, success
resolves the reconstructed data; otherwise resolve `Unavailable`. -/
def runRecoveryTask (codec : Codec)
    (getIndex : Hash → Option SessionIndex)
    (getInfo : SessionIndex → Option SessionInfo)
    (relay_parent : Hash) (root : Hash)
    (oracle : ValidatorIndex → ChunkResponse) :
    Except RecoveryError AvailableData :=
  match fetchSession getIndex getInfo relay_parent with
  | none => .error .Unavailable
  | some info =>
      let st := taskChunkState codec root info oracle
      if codec.threshold info.validators.length ≤ st.received.length then
        match codec.decode info.validators.length st.received with
        | some d => .ok d
        | none => .error .InvalidErasureRoot
      else .error .Unavailable

/-- The validators (among those tried) whose response is a chunk that
verifies against the erasure root. -/
def goodResponders (codec : Codec) (root : Hash)
    (oracle : ValidatorIndex → ChunkResponse)
    (vs : List ValidatorIndex) : List ValidatorIndex :=
  vs.filter (fun v =>
    match oracle v with
    | .chunk c => codec.verify root c
    | .noChunk => false
    | .transportError => false)

/-! ## Recovery Subsystem coordinator (modelled from the spec)

Caller reply channels are identified by numbers; the coordinator's
registry maps each in-flight candidate hash to the list of reply
channels registered on its task's outcome. -/

abbrev ReplyChannel := Nat

abbrev TaskRegistry := List (CandidateHash × List ReplyChannel)

/-- Modelled from the spec: the coordinator's handling of a recovery
request for a candidate hash.  If a task for this hash is already
running, register the new reply channel as an additional listener on its
outcome (no new task); otherwise spawn a new Recovery Task holding this
one reply channel.  The boolean reports whether a new task (with its own
set of chunk requests) was spawned. -/
def handleRecoverRequest (s : TaskRegistry) (h : CandidateHash)
    (ch : ReplyChannel) : TaskRegistry × Bool :=
  match s.lookup h with
  | some _ =>
      (s.map (fun p => if p.1 = h then (p.1, p.2 ++ [ch]) else p), false)
  | none => (s ++ [(h, [ch])], true)

/-- Modelled from the spec: a terminal state resolves every registered
reply channel with the same result. -/
def resolveTask (listeners : List ReplyChannel)
    (r : Except RecoveryError AvailableData) :
    List (ReplyChannel × Except RecoveryError AvailableData) :=
  listeners.map (fun ch => (ch, r))

/-- Modelled from the spec: the resolutions a Recovery Task emits over its
whole life.  A task that is cancelled by shutdown resolves every
listener with `Unavailable`; otherwise it resolves every listener with
the outcome of its run. -/
def taskResolutions (listeners : List ReplyChannel) (cancelled : Bool)
    (codec : Codec)
    (getIndex : Hash → Option SessionIndex)
    (getInfo : SessionIndex → Option SessionInfo)
    (relay_parent : Hash) (root : Hash)
    (oracle : ValidatorIndex → ChunkResponse) :
    List (ReplyChannel × Except RecoveryError AvailableData) :=
  resolveTask listeners
    (if cancelled then .error .Unavailable
     else runRecoveryTask codec getIndex getInfo relay_parent root oracle)

/-! ## Test-pinned interaction trace (`tests.rs`)

The harness dictates, message by message, what the subsystem sends while
recovering one candidate; the trace below transcribes it. -/

/-- The messages of the subsystem's outbound trace that the harness
asserts on. -/
inductive Msg where
  | sessionIndexForChild
  | sessionInfo
  | connectToValidators
  | requestChunk (validator_index : ValidatorIndex)
deriving DecidableEq, Repr

/-- `TestState::test_runtime_api`: the harness consumes one
`SessionIndexForChild` request (answering the session index) and then
one `SessionInfo` request (answering the validator and discovery-key
lists). -/
def test_runtime_api : List Msg :=
  [.sessionIndexForChild, .sessionInfo]

/-- `TestState::test_connect_to_validators`: for each of the `n`
validators, the harness consumes one full runtime-api exchange and then
one `ConnectToValidators` request, answering with connections. -/
def test_connect_to_validators (n : Nat) : List Msg :=
  (List.range n).flatMap (fun _ => test_runtime_api ++ [.connectToValidators])

/-- `TestState::test_chunk_requests`: the harness consumes one
`RequestChunk` wire message per validator and answers each with that
validator's own chunk. -/
def test_chunk_requests (n : Nat) : List Msg :=
  (List.range n).map .requestChunk

/-- The full outbound trace of one candidate recovery as pinned by
`availability_is_recovered`: one runtime-api exchange, then the
connection phase, then the chunk requests. -/
def recovery_trace (n : Nat) : List Msg :=
  test_runtime_api ++ test_connect_to_validators n ++ test_chunk_requests n

/-- Number of session-index lookups a trace contains. -/
def sessionIndexLookups (t : List Msg) : Nat :=
  t.count .sessionIndexForChild

/-- Number of session-info lookups a trace contains. -/
def sessionInfoLookups (t : List Msg) : Nat :=
  t.count .sessionInfo

/-! ## A trivial in-memory codec stub and the harness scenario

The erasure coding and Merkle proof primitives are an external
capability; as the spec's design notes direct, the reconstruction core
is exercised against a trivial in-memory codec stub: serialize the
payload, replicate it into every chunk, commit with a rolling hash. -/

/-- Serialize an `AvailableData` into a flat blob. -/
def encodeAD (d : AvailableData) : List Nat :=
  d.validation_data.parent_head.length :: d.validation_data.parent_head
    ++ [d.validation_data.block_number, d.validation_data.max_pov_size]
    ++ d.pov.block_data

/-- Parse a flat blob back into an `AvailableData`. -/
def decodeAD : List Nat → Option AvailableData
  | [] => none
  | k :: rest =>
      match rest.drop k with
      | bn :: mp :: bd =>
          if (rest.take k).length = k then
            some ⟨⟨rest.take k, bn, mp⟩, ⟨bd⟩⟩
          else none
      | _ => none

/-- A rolling hash standing in for the Merkle commitment. -/
def listHash (l : List Nat) : Nat :=
  l.foldl (fun a b => (a * 31 + b + 1) % 1000003) 7

/-- Stub encoding: every one of the `n` chunks carries the serialized
payload. -/
def stubEncode (n : Nat) (d : AvailableData) : List ErasureChunk :=
  (List.range n).map (fun i => ⟨encodeAD d, i, []⟩)

/-- Stub erasure root: hash of the serialized payload. -/
def stubRoot (d : AvailableData) : Hash :=
  listHash (encodeAD d)

/-- The stub codec: threshold just over a third of `n`, verification by
recomputing the rolling hash, decode by parsing the first chunk once the
threshold is met. -/
def stubCodec : Codec where
  threshold := fun n => n / 3 + 1
  verify := fun root c => listHash c.chunk == root
  decode := fun n chunks =>
    if n / 3 + 1 ≤ chunks.length then
      match chunks with
      | [] => none
      | c :: _ => decodeAD c.chunk
    else none

/-- A codec standing for the simulated-corruption scenario: chunks all
pass individual verification, yet decoding the accumulated set always
fails its internal consistency check. -/
def corruptCodec : Codec where
  threshold := fun n => n / 3 + 1
  verify := fun _ _ => true
  decode := fun _ _ => none

/-! Scenario data from `TestState::default`: five validators (Ferdie,
Alice, Bob, Charlie, Dave — numbered 0 to 4), relay parent
`Hash::repeat_byte(1)`, session index 10, and the test payload. -/

/-- The five test validators. -/
def test_validators : List ValidatorId := [0, 1, 2, 3, 4]

/-- The current relay parent of the harness. -/
def test_current : Hash := 1

/-- The session index the runtime answers with. -/
def test_session_index : SessionIndex := 10

/-- The persisted validation data of the test payload. -/
def test_persisted_validation_data : PersistedValidationData :=
  ⟨[7, 8, 9], 0, 1024⟩

/-- The test `AvailableData`: validation data plus a PoV of 64 bytes 42. -/
def test_available_data : AvailableData :=
  ⟨test_persisted_validation_data, ⟨List.replicate 64 42⟩⟩

/-- The five chunks derived from the test payload. -/
def test_chunks : List ErasureChunk :=
  stubEncode 5 test_available_data

/-- The erasure root committed in the test candidate's descriptor. -/
def test_erasure_root : Hash :=
  stubRoot test_available_data

/-- Session-index lookup of the harness: answers 10 for the current relay
parent. -/
def test_getIndex : Hash → Option SessionIndex :=
  fun h => if h == test_current then some test_session_index else none

/-- Session-info lookup of the harness: answers the five known validator
identities for session 10. -/
def test_getInfo : SessionIndex → Option SessionInfo :=
  fun i =>
    if i == test_session_index then some ⟨test_validators, test_validators⟩
    else none

/-- The responsive harness: each of the five validators supplies its own
chunk. -/
def test_oracle : ValidatorIndex → ChunkResponse :=
  fun v =>
    match test_chunks.get? v with
    | some c => .chunk c
    | none => .noChunk

/-- The silent harness of the second scenario: no validator ever supplies
a chunk before the deadline. -/
def silent_oracle : ValidatorIndex → ChunkResponse :=
  fun _ => .noChunk

/-- A chunk that does not verify against erasure root 0 under the stub
codec. -/
def badChunk : ErasureChunk := ⟨[1], 0, []⟩

/-- A harness in which every validator answers with the bad chunk. -/
def badOracle : ValidatorIndex → ChunkResponse :=
  fun _ => .chunk badChunk

/-- A concrete instantiation of the external primitives capabilities, for
evaluating the embedded `node/primitives` functions on closed inputs. -/
def natEnv : PrimEnv where
  hashACR := fun c => listHash c.data
  primSigningPayload := fun s context =>
    match s with
    | .Candidate h => [1, h, context]
    | .Valid h => [2, h, context]
    | .Invalid h => [3, h, context]
  verifySig := fun sig payload v => sig == listHash (v :: payload)

/-! ## Helper lemmas about the chunk-fetch loop -/

/-- `hasIndex` decides membership of an index in the accumulated set. -/
theorem hasIndex_iff (chunks : List ErasureChunk) (i : ValidatorIndex) :
    hasIndex chunks i = true ↔ i ∈ chunks.map ErasureChunk.index := by
  simp [hasIndex, List.any_eq_true, List.mem_map]

/-- A step never removes chunks and adds at most one. -/
theorem chunkStep_received_length_le (codec : Codec) (root : Hash)
    (st : ChunkState) (v : ValidatorIndex) (r : ChunkResponse) :
    (chunkStep codec root st v r).received.length ≤ st.received.length + 1 := by
  cases r with
  | chunk c =>
      by_cases hv : codec.verify root c = true
      · by_cases hi : hasIndex st.received c.index = true
        · simp [chunkStep, hv, hi]
        · simp [chunkStep, hv, hi]
      · simp [chunkStep, hv]
  | noChunk => simp [chunkStep]
  | transportError => simp [chunkStep]

/-- A step only ever adds a chunk that verifies against the root. -/
theorem chunkStep_verified (codec : Codec) (root : Hash)
    (st : ChunkState) (v : ValidatorIndex) (r : ChunkResponse)
    (hst : ∀ c ∈ st.received, codec.verify root c = true) :
    ∀ c ∈ (chunkStep codec root st v r).received, codec.verify root c = true := by
  cases r with
  | chunk c =>
      by_cases hv : codec.verify root c = true
      · by_cases hi : hasIndex st.received c.index = true
        · simpa [chunkStep, hv, hi] using hst
        · intro d hd
          have hrec : (chunkStep codec root st v (.chunk c)).received =
              st.received ++ [c] := by simp [chunkStep, hv, hi]
          rw [hrec] at hd
          rcases List.mem_append.mp hd with hd | hd
          · exact hst d hd
          · rw [List.mem_singleton] at hd
            subst hd; exact hv
      · simpa [chunkStep, hv] using hst
  | noChunk => simpa [chunkStep] using hst
  | transportError => simpa [chunkStep] using hst

/-- A step only ever adds a chunk whose index is not already held. -/
theorem chunkStep_nodup (codec : Codec) (root : Hash)
    (st : ChunkState) (v : ValidatorIndex) (r : ChunkResponse)
    (hst : (st.received.map ErasureChunk.index).Nodup) :
    ((chunkStep codec root st v r).received.map ErasureChunk.index).Nodup := by
  cases r with
  | chunk c =>
      by_cases hv : codec.verify root c = true
      · by_cases hi : hasIndex st.received c.index = true
        · simpa [chunkStep, hv, hi] using hst
        · have hni : c.index ∉ st.received.map ErasureChunk.index := by
            intro hmem
            exact hi ((hasIndex_iff st.received c.index).mpr hmem)
          have hrec : (chunkStep codec root st v (.chunk c)).received =
              st.received ++ [c] := by simp [chunkStep, hv, hi]
          rw [hrec, List.map_append, List.map_singleton]
          refine hst.append (List.nodup_singleton _) ?_
          intro a ha hb
          rw [List.mem_singleton] at hb
          subst hb
          exact hni ha
      · simpa [chunkStep, hv] using hst
  | noChunk => simpa [chunkStep] using hst
  | transportError => simpa [chunkStep] using hst

/-- Over a run of the loop, every accumulated chunk verifies. -/
theorem chunkFetch_verified (codec : Codec) (root : Hash) (T : Nat)
    (oracle : ValidatorIndex → ChunkResponse) :
    ∀ (vs : List ValidatorIndex) (st : ChunkState),
      (∀ c ∈ st.received, codec.verify root c = true) →
      ∀ c ∈ (chunkFetch codec root T oracle vs st).received,
        codec.verify root c = true := by
  intro vs
  induction vs with
  | nil => intro st hst; simpa [chunkFetch] using hst
  | cons v vs ih =>
      intro st hst
      by_cases hT : T ≤ st.received.length
      · simpa [chunkFetch, hT] using hst
      · simpa [chunkFetch, hT] using
          ih (chunkStep codec root st v (oracle v))
            (chunkStep_verified codec root st v (oracle v) hst)

/-- Over a run of the loop, the accumulated indices stay distinct. -/
theorem chunkFetch_nodup (codec : Codec) (root : Hash) (T : Nat)
    (oracle : ValidatorIndex → ChunkResponse) :
    ∀ (vs : List ValidatorIndex) (st : ChunkState),
      (st.received.map ErasureChunk.index).Nodup →
      ((chunkFetch codec root T oracle vs st).received.map
        ErasureChunk.index).Nodup := by
  intro vs
  induction vs with
  | nil => intro st hst; simpa [chunkFetch] using hst
  | cons v vs ih =>
      intro st hst
      by_cases hT : T ≤ st.received.length
      · simpa [chunkFetch, hT] using hst
      · simpa [chunkFetch, hT] using
          ih (chunkStep codec root st v (oracle v))
            (chunkStep_nodup codec root st v (oracle v) hst)

/-- The loop accumulates at most one chunk per validator whose response
is a chunk verifying against the root. -/
theorem chunkFetch_received_le_good (codec : Codec) (root : Hash) (T : Nat)
    (oracle : ValidatorIndex → ChunkResponse) :
    ∀ (vs : List ValidatorIndex) (st : ChunkState),
      (chunkFetch codec root T oracle vs st).received.length ≤
        st.received.length + (goodResponders codec root oracle vs).length := by
  intro vs
  induction vs with
  | nil => intro st; simp [chunkFetch]
  | cons v vs ih =>
      intro st
      by_cases hT : T ≤ st.received.length
      · simp [chunkFetch, hT]
      · simp only [chunkFetch, hT, if_false]
        refine le_trans (ih (chunkStep codec root st v (oracle v))) ?_
        cases hr : oracle v with
        | chunk c =>
            by_cases hv : codec.verify root c = true
            · have hstep := chunkStep_received_length_le codec root st v (.chunk c)
              have hg : goodResponders codec root oracle (v :: vs) =
                  v :: goodResponders codec root oracle vs := by
                simp [goodResponders, List.filter_cons, hr, hv]
              rw [hg]
              simp only [List.length_cons]
              omega
            · have hstep : (chunkStep codec root st v (.chunk c)).received =
                  st.received := by
                simp [chunkStep, hv]
              have hg : goodResponders codec root oracle (v :: vs) =
                  goodResponders codec root oracle vs := by
                simp [goodResponders, List.filter_cons, hr, hv]
              rw [hstep, hg]
        | noChunk =>
            have hstep : (chunkStep codec root st v .noChunk).received =
                st.received := by simp [chunkStep]
            have hg : goodResponders codec root oracle (v :: vs) =
                goodResponders codec root oracle vs := by
              simp [goodResponders, List.filter_cons, hr]
            rw [hstep, hg]
        | transportError =>
            have hstep : (chunkStep codec root st v .transportError).received =
                st.received := by simp [chunkStep]
            have hg : goodResponders codec root oracle (v :: vs) =
                goodResponders codec root oracle vs := by
              simp [goodResponders, List.filter_cons, hr]
            rw [hstep, hg]

/-- The loop accumulates at most one chunk per validator tried. -/
theorem chunkFetch_received_le_tried (codec : Codec) (root : Hash) (T : Nat)
    (oracle : ValidatorIndex → ChunkResponse)
    (vs : List ValidatorIndex) (st : ChunkState) :
    (chunkFetch codec root T oracle vs st).received.length ≤
      st.received.length + vs.length := by
  refine le_trans (chunkFetch_received_le_good codec root T oracle vs st) ?_
  have := List.length_filter_le
    (fun v =>
      match oracle v with
      | .chunk c => codec.verify root c
      | .noChunk => false
      | .transportError => false) vs
  simp only [goodResponders]
  omega

/-! ## Helper lemmas about the coordinator, resolutions and traces -/

/-- Updating the listener list of a running task leaves the set of task
keys unchanged. -/
theorem update_keys (h : CandidateHash) (ch : ReplyChannel)
    (s : TaskRegistry) :
    ((s.map (fun p => if p.1 = h then (p.1, p.2 ++ [ch]) else p)).map
      Prod.fst) = s.map Prod.fst := by
  induction s with
  | nil => rfl
  | cons p t ih =>
      simp only [List.map_cons, ih]
      congr 1
      by_cases hk : p.1 = h <;> simp [hk]

/-- Updating the listener list of the task for `h` appends the new channel
to the listeners found for `h`. -/
theorem lookup_update (h : CandidateHash) (ch : ReplyChannel) :
    ∀ (s : TaskRegistry) (ls : List ReplyChannel), s.lookup h = some ls →
      ((s.map (fun p => if p.1 = h then (p.1, p.2 ++ [ch]) else p)).lookup h) =
        some (ls ++ [ch]) := by
  intro s
  induction s with
  | nil =>
      intro ls hls
      simp [List.lookup] at hls
  | cons p t ih =>
      intro ls hls
      obtain ⟨k, v⟩ := p
      by_cases hk : h = k
      · subst hk
        simp only [List.lookup] at hls
        rw [show (h == h) = true from beq_self_eq_true h] at hls
        injection hls with hls
        subst hls
        simp only [List.map_cons, if_pos rfl]
        simp only [List.lookup]
        rw [show (h == h) = true from beq_self_eq_true h]
      · simp only [List.lookup] at hls
        rw [show (h == k) = false from beq_eq_false_iff_ne.mpr hk] at hls
        have hres := ih ls hls
        simp only [List.map_cons, if_neg (show ¬ k = h from fun he => hk he.symm)]
        simp only [List.lookup]
        rw [show (h == k) = false from beq_eq_false_iff_ne.mpr hk]
        exact hres

/-- Resolving a task addresses exactly the registered listeners, in
order. -/
theorem resolveTask_fst (listeners : List ReplyChannel)
    (r : Except RecoveryError AvailableData) :
    (resolveTask listeners r).map Prod.fst = listeners := by
  induction listeners with
  | nil => rfl
  | cons a t ih =>
      simp only [resolveTask, List.map_cons] at ih ⊢
      rw [ih]

/-- Counting occurrences in a constant `flatMap` over a range. -/
theorem count_flatMap_const (l : List Msg) (m : Msg) :
    ∀ n : Nat, (((List.range n).flatMap (fun _ => l)).count m) = n * l.count m := by
  intro n
  induction n with
  | zero => simp
  | succ k ih =>
      rw [List.range_succ, List.flatMap_append, List.count_append, ih]
      simp [Nat.succ_mul]

/-- Chunk-request messages are never session lookups. -/
theorem count_chunk_requests_ne (n : Nat) (m : Msg)
    (hm : ∀ i, m ≠ .requestChunk i) :
    (test_chunk_requests n).count m = 0 := by
  rw [List.count_eq_zero]
  intro hmem
  simp only [test_chunk_requests, List.mem_map] at hmem
  obtain ⟨i, _, hi⟩ := hmem
  exact hm i hi.symm

/-! ## The claims -/

set_option maxRecDepth 10000 in
/-- Claim C1: for the harness scenario over 5 validators — session-index
lookup answering 10, session-info lookup answering the 5 known validator
identities, the task connecting to all 5, and each validator supplying
its own chunk verifying against the erasure root — decode reproduces the
original `AvailableData` exactly and the caller's reply channel receives
`Ok(data)` equal to the originally encoded payload. -/
theorem C1_availability_is_recovered :
    test_getIndex test_current = some 10 ∧
    test_getInfo 10 = some ⟨test_validators, test_validators⟩ ∧
    test_validators.length = 5 ∧
    (recovery_trace 5).count .connectToValidators = 5 ∧
    (List.range 5).map test_oracle = test_chunks.map ChunkResponse.chunk ∧
    test_chunks.all (stubCodec.verify test_erasure_root) = true ∧
    test_chunks.map ErasureChunk.index = [0, 1, 2, 3, 4] ∧
    stubCodec.decode 5
      (taskChunkState stubCodec test_erasure_root
        ⟨test_validators, test_validators⟩ test_oracle).received =
      some test_available_data ∧
    runRecoveryTask stubCodec test_getIndex test_getInfo test_current
      test_erasure_root test_oracle = .ok test_available_data ∧
    taskResolutions [7] false stubCodec test_getIndex test_getInfo
      test_current test_erasure_root test_oracle =
      [(7, .ok test_available_data)] :=
  ⟨rfl, rfl, rfl, by decide, by rfl, by rfl, by rfl, by rfl, by rfl, by rfl⟩

/-- Claim C2: whenever fewer than the threshold many distinct validators
respond with a chunk that verifies against the erasure root, the task
resolves `Unavailable`, no matter how many invalid or garbage responses
arrived. -/
theorem C2_below_threshold_unavailable (codec : Codec)
    (getIndex : Hash → Option SessionIndex)
    (getInfo : SessionIndex → Option SessionInfo)
    (relay_parent root : Hash) (oracle : ValidatorIndex → ChunkResponse)
    (info : SessionInfo)
    (hsess : fetchSession getIndex getInfo relay_parent = some info)
    (hfew : (goodResponders codec root oracle
        (List.range info.validators.length)).length <
      codec.threshold info.validators.length) :
    runRecoveryTask codec getIndex getInfo relay_parent root oracle =
      .error .Unavailable := by
  have hlen : (taskChunkState codec root info oracle).received.length <
      codec.threshold info.validators.length := by
    have hle := chunkFetch_received_le_good codec root
      (codec.threshold info.validators.length) oracle
      (List.range info.validators.length) ⟨[], []⟩
    simp only [taskChunkState]
    simp only [List.length_nil] at hle
    omega
  simp only [runRecoveryTask, hsess]
  rw [if_neg (not_le.mpr hlen)]

/-- Witness for C2: the harness scenario where no validator ever supplies
a chunk; the caller receives `Err(Unavailable)`. -/
theorem C2_witness :
    fetchSession test_getIndex test_getInfo test_current =
      some ⟨test_validators, test_validators⟩ ∧
    (goodResponders stubCodec 0 silent_oracle (List.range 5)).length <
      stubCodec.threshold 5 ∧
    runRecoveryTask stubCodec test_getIndex test_getInfo test_current 0
      silent_oracle = .error .Unavailable :=
  ⟨rfl, by decide, C2_below_threshold_unavailable stubCodec test_getIndex
    test_getInfo test_current 0 silent_oracle
    ⟨test_validators, test_validators⟩ rfl (by decide)⟩

/-- Claim C3: whenever the task collects at least threshold many chunks —
all of which verify individually against the erasure root — and the
codec's decode of the accumulated set fails, the task resolves
`InvalidErasureRoot`, not `Unavailable`. -/
theorem C3_decode_failure_invalid_root (codec : Codec)
    (getIndex : Hash → Option SessionIndex)
    (getInfo : SessionIndex → Option SessionInfo)
    (relay_parent root : Hash) (oracle : ValidatorIndex → ChunkResponse)
    (info : SessionInfo)
    (hsess : fetchSession getIndex getInfo relay_parent = some info)
    (hT : codec.threshold info.validators.length ≤
      (taskChunkState codec root info oracle).received.length)
    (hdec : codec.decode info.validators.length
      (taskChunkState codec root info oracle).received = none) :
    (∀ c ∈ (taskChunkState codec root info oracle).received,
      codec.verify root c = true) ∧
    runRecoveryTask codec getIndex getInfo relay_parent root oracle =
      .error .InvalidErasureRoot := by
  constructor
  · simp only [taskChunkState]
    exact chunkFetch_verified codec root
      (codec.threshold info.validators.length) oracle
      (List.range info.validators.length) ⟨[], []⟩ (by simp)
  · simp only [runRecoveryTask, hsess]
    rw [if_pos hT, hdec]

set_option maxRecDepth 10000 in
/-- Witness for C3: the simulated-corruption codec accepts every chunk
individually but always fails decode; with all five validators
responding, the caller receives `Err(InvalidErasureRoot)`. -/
theorem C3_witness :
    fetchSession test_getIndex test_getInfo test_current =
      some ⟨test_validators, test_validators⟩ ∧
    corruptCodec.threshold 5 ≤
      (taskChunkState corruptCodec 0 ⟨test_validators, test_validators⟩
        test_oracle).received.length ∧
    corruptCodec.decode 5
      (taskChunkState corruptCodec 0 ⟨test_validators, test_validators⟩
        test_oracle).received = none ∧
    runRecoveryTask corruptCodec test_getIndex test_getInfo test_current 0
      test_oracle = .error .InvalidErasureRoot :=
  ⟨rfl, by decide, rfl,
    (C3_decode_failure_invalid_root corruptCodec test_getIndex test_getInfo
      test_current 0 test_oracle ⟨test_validators, test_validators⟩ rfl
      (by decide) rfl).2⟩

/-- Claim C4: a received chunk whose proof does not verify against the
erasure root is never counted toward the threshold and never resolves
the task by itself: the accumulated set is unchanged, the supplying
validator is marked failed, and the loop proceeds to the remaining
untried validators. -/
theorem C4_invalid_chunk_never_counted (codec : Codec) (root : Hash)
    (st : ChunkState) (v : ValidatorIndex) (c : ErasureChunk) (T : Nat)
    (oracle : ValidatorIndex → ChunkResponse) (vs : List ValidatorIndex)
    (hv : codec.verify root c = false)
    (ho : oracle v = .chunk c)
    (hT : st.received.length < T) :
    (chunkStep codec root st v (.chunk c)).received = st.received ∧
    (chunkStep codec root st v (.chunk c)).failed = st.failed ++ [v] ∧
    chunkFetch codec root T oracle (v :: vs) st =
      chunkFetch codec root T oracle vs
        ⟨st.received, st.failed ++ [v]⟩ := by
  refine ⟨by simp [chunkStep, hv], by simp [chunkStep, hv], ?_⟩
  simp only [chunkFetch]
  rw [if_neg (not_le.mpr hT), ho]
  simp [chunkStep, hv]

/-- Witness for C4: a bad chunk under the stub codec is discarded, the
validator is marked failed, and the loop moves on. -/
theorem C4_witness :
    stubCodec.verify 0 badChunk = false ∧
    badOracle 0 = .chunk badChunk ∧
    (⟨[], []⟩ : ChunkState).received.length < 2 ∧
    ((chunkStep stubCodec 0 ⟨[], []⟩ 0 (.chunk badChunk)).received = [] ∧
      (chunkStep stubCodec 0 ⟨[], []⟩ 0 (.chunk badChunk)).failed =
        [] ++ [0] ∧
      chunkFetch stubCodec 0 2 badOracle (0 :: [1]) ⟨[], []⟩ =
        chunkFetch stubCodec 0 2 badOracle [1] ⟨[], [] ++ [0]⟩) :=
  ⟨by decide, rfl, by decide,
    C4_invalid_chunk_never_counted stubCodec 0 ⟨[], []⟩ 0 badChunk 2
      badOracle [1] (by decide) rfl (by decide)⟩

/-- Claim C5: starting from the empty accumulated set, after any run of
the chunk-fetch loop over at most `n` validators the accumulated set
holds only chunks verified against the erasure root, has at most `n`
members and no two chunks of equal index; and every step of the loop
preserves verifiedness and index-distinctness while adding at most one
chunk. -/
theorem C5_chunk_set_invariant (codec : Codec) (root : Hash) (T n : Nat)
    (oracle : ValidatorIndex → ChunkResponse) (vs : List ValidatorIndex)
    (hn : vs.length ≤ n) :
    (∀ c ∈ (chunkFetch codec root T oracle vs ⟨[], []⟩).received,
      codec.verify root c = true) ∧
    (chunkFetch codec root T oracle vs ⟨[], []⟩).received.length ≤ n ∧
    ((chunkFetch codec root T oracle vs ⟨[], []⟩).received.map
      ErasureChunk.index).Nodup ∧
    (∀ st v r, (∀ c ∈ st.received, codec.verify root c = true) →
      (st.received.map ErasureChunk.index).Nodup →
      ((∀ c ∈ (chunkStep codec root st v r).received,
          codec.verify root c = true) ∧
        ((chunkStep codec root st v r).received.map
          ErasureChunk.index).Nodup ∧
        (chunkStep codec root st v r).received.length ≤
          st.received.length + 1)) := by
  refine ⟨chunkFetch_verified codec root T oracle vs ⟨[], []⟩ (by simp),
    ?_, chunkFetch_nodup codec root T oracle vs ⟨[], []⟩ (by simp),
    fun st v r h1 h2 => ⟨chunkStep_verified codec root st v r h1,
      chunkStep_nodup codec root st v r h2,
      chunkStep_received_length_le codec root st v r⟩⟩
  have hle := chunkFetch_received_le_tried codec root T oracle vs ⟨[], []⟩
  simp only [List.length_nil] at hle
  omega

/-- Witness for C5: the invariant at the harness scenario over the five
validators. -/
theorem C5_witness :
    (List.range 5).length ≤ 5 ∧
    ((∀ c ∈ (chunkFetch stubCodec test_erasure_root 2 test_oracle
        (List.range 5) ⟨[], []⟩).received,
      stubCodec.verify test_erasure_root c = true) ∧
    (chunkFetch stubCodec test_erasure_root 2 test_oracle
      (List.range 5) ⟨[], []⟩).received.length ≤ 5 ∧
    ((chunkFetch stubCodec test_erasure_root 2 test_oracle
      (List.range 5) ⟨[], []⟩).received.map ErasureChunk.index).Nodup ∧
    (∀ st v r, (∀ c ∈ st.received,
        stubCodec.verify test_erasure_root c = true) →
      (st.received.map ErasureChunk.index).Nodup →
      ((∀ c ∈ (chunkStep stubCodec test_erasure_root st v r).received,
          stubCodec.verify test_erasure_root c = true) ∧
        ((chunkStep stubCodec test_erasure_root st v r).received.map
          ErasureChunk.index).Nodup ∧
        (chunkStep stubCodec test_erasure_root st v r).received.length ≤
          st.received.length + 1))) :=
  ⟨by decide,
    C5_chunk_set_invariant stubCodec test_erasure_root 2 5 test_oracle
      (List.range 5) (by decide)⟩

/-- Claim C6: a recovery request for a candidate hash that already has a
running task spawns no second task (and thus no second set of chunk
requests): the task registry's keys are unchanged, the new reply channel
is appended to the existing task's listeners, and resolving that task
delivers one and the same outcome to every registered channel. -/
theorem C6_duplicate_request_attaches (s : TaskRegistry)
    (h : CandidateHash) (ch : ReplyChannel) (ls : List ReplyChannel)
    (r : Except RecoveryError AvailableData)
    (hrun : s.lookup h = some ls) :
    (handleRecoverRequest s h ch).2 = false ∧
    (handleRecoverRequest s h ch).1.map Prod.fst = s.map Prod.fst ∧
    (handleRecoverRequest s h ch).1.lookup h = some (ls ++ [ch]) ∧
    (∀ p ∈ resolveTask (ls ++ [ch]) r, p.2 = r) ∧
    (resolveTask (ls ++ [ch]) r).map Prod.fst = ls ++ [ch] := by
  refine ⟨?_, ?_, ?_, ?_, resolveTask_fst (ls ++ [ch]) r⟩
  · simp [handleRecoverRequest, hrun]
  · simp only [handleRecoverRequest, hrun]
    exact update_keys h ch s
  · simp only [handleRecoverRequest, hrun]
    exact lookup_update h ch s ls hrun
  · intro p hp
    simp only [resolveTask, List.mem_map] at hp
    obtain ⟨a, _, hpa⟩ := hp
    rw [← hpa]

/-- Witness for C6: a second request for candidate hash 5 attaches to the
running task and both channels receive the same outcome. -/
theorem C6_witness :
    ([(5, [77])] : TaskRegistry).lookup 5 = some [77] ∧
    ((handleRecoverRequest [(5, [77])] 5 88).2 = false ∧
      (handleRecoverRequest [(5, [77])] 5 88).1.map Prod.fst =
        ([(5, [77])] : TaskRegistry).map Prod.fst ∧
      (handleRecoverRequest [(5, [77])] 5 88).1.lookup 5 =
        some ([77] ++ [88]) ∧
      (∀ p ∈ resolveTask ([77] ++ [88]) (.error .Unavailable),
        p.2 = .error .Unavailable) ∧
      (resolveTask ([77] ++ [88]) (.error .Unavailable)).map Prod.fst =
        [77] ++ [88]) :=
  ⟨rfl, C6_duplicate_request_attaches [(5, [77])] 5 88 [77]
    (.error .Unavailable) rfl⟩

/-- Claim C7: a reply channel registered on a Recovery Task is resolved
exactly once over the task's whole life, on every path — success, typed
failure, or the cancellation path defaulting to `Unavailable`. -/
theorem C7_resolved_exactly_once (listeners : List ReplyChannel)
    (cancelled : Bool) (codec : Codec)
    (getIndex : Hash → Option SessionIndex)
    (getInfo : SessionIndex → Option SessionInfo)
    (relay_parent root : Hash) (oracle : ValidatorIndex → ChunkResponse)
    (ch : ReplyChannel) (hnd : listeners.Nodup) (hmem : ch ∈ listeners) :
    ((taskResolutions listeners cancelled codec getIndex getInfo
      relay_parent root oracle).map Prod.fst).count ch = 1 := by
  simp only [taskResolutions]
  rw [resolveTask_fst]
  exact List.count_eq_one_of_mem hnd hmem

/-- Witness for C7: with two distinct registered channels, channel 3 is
resolved exactly once on the non-cancelled path of the harness
scenario. -/
theorem C7_witness :
    ([3, 4] : List ReplyChannel).Nodup ∧ 3 ∈ ([3, 4] : List ReplyChannel) ∧
    ((taskResolutions [3, 4] false stubCodec test_getIndex test_getInfo
      test_current test_erasure_root test_oracle).map Prod.fst).count 3 =
      1 :=
  ⟨by decide, by decide,
    C7_resolved_exactly_once [3, 4] false stubCodec test_getIndex
      test_getInfo test_current test_erasure_root test_oracle 3
      (by decide) (by decide)⟩

/-- Claim C8 as stated is false on the test-pinned interaction trace: in
the five-validator recovery of `availability_is_recovered`, the
session-index and session-info lookups are not issued exactly once — the
trace holds six of each, one initial pair plus one pair before each of
the five validator-connection rounds. -/
theorem C8_counterexample :
    ¬ (sessionIndexLookups (recovery_trace 5) = 1 ∧
       sessionInfoLookups (recovery_trace 5) = 1) := by decide

/-- Claim C8 (amended): per candidate recovery over `n` validators, the
session-index and session-info lookups are each issued `1 + n` times —
once at task start and once more before each validator-connection
round — rather than exactly once. -/
theorem C8_session_lookups_once_per_round (n : Nat) :
    sessionIndexLookups (recovery_trace n) = 1 + n ∧
    sessionInfoLookups (recovery_trace n) = 1 + n := by
  constructor
  · simp only [sessionIndexLookups, recovery_trace, List.count_append,
      test_connect_to_validators]
    rw [count_flatMap_const, count_chunk_requests_ne _ _ (by intro i hi; cases hi)]
    have h1 : test_runtime_api.count Msg.sessionIndexForChild = 1 := by decide
    have h2 : (test_runtime_api ++ [Msg.connectToValidators]).count
        Msg.sessionIndexForChild = 1 := by decide
    rw [h1, h2]
    omega
  · simp only [sessionInfoLookups, recovery_trace, List.count_append,
      test_connect_to_validators]
    rw [count_flatMap_const, count_chunk_requests_ne _ _ (by intro i hi; cases hi)]
    have h1 : test_runtime_api.count Msg.sessionInfo = 1 := by decide
    have h2 : (test_runtime_api ++ [Msg.connectToValidators]).count
        Msg.sessionInfo = 1 := by decide
    rw [h1, h2]
    omega

/-- Claim C9: an out-of-bounds sender index on a `SignedStatement` and an
out-of-bounds validator index on a `SignedAvailabilityBitfield` both
make `check_signature` return `Err(())` totally — the lookup is
`Option`-returning, so the out-of-bounds case is an error branch, never
an abort. -/
theorem C9_out_of_bounds_is_err (env : PrimEnv) (s : SignedStatement)
    (b : SignedAvailabilityBitfield) (validators : List ValidatorId)
    (signing_context : SigningContext)
    (hs : validators.length ≤ s.sender)
    (hb : validators.length ≤ b.validator_index) :
    s.check_signature env validators signing_context = .error () ∧
    b.check_signature env validators = .error () := by
  constructor
  · simp only [SignedStatement.check_signature]
    rw [List.get?_eq_none.mpr hs]
  · simp only [SignedAvailabilityBitfield.check_signature]
    rw [List.get?_eq_none.mpr hb]

/-- Witness for C9: sender index 2 against a two-validator set errors for
both the statement and the bitfield. -/
theorem C9_witness :
    ([10, 11] : List ValidatorId).length ≤ 2 ∧
    (SignedStatement.check_signature natEnv ⟨.Valid 0, 0, 2⟩ [10, 11] 0 =
      .error () ∧
    SignedAvailabilityBitfield.check_signature natEnv ⟨2, [], 0⟩ [10, 11] =
      .error ()) :=
  ⟨by decide,
    C9_out_of_bounds_is_err natEnv ⟨.Valid 0, 0, 2⟩ ⟨2, [], 0⟩ [10, 11] 0
      (by decide) (by decide)⟩

/-- Claim C10: the signed payload of a `Seconded` statement commits only
to the candidate's hash: two receipts with equal hashes yield equal
payloads under any signing context. -/
theorem C10_seconded_commits_to_hash (env : PrimEnv)
    (c1 c2 : AbridgedCandidateReceipt) (context : SigningContext)
    (hh : env.hashACR c1 = env.hashACR c2) :
    Statement.signing_payload env (.Seconded c1) context =
      Statement.signing_payload env (.Seconded c2) context := by
  simp only [Statement.signing_payload, hh]

/-- Witness for C10: two distinct receipts colliding under the concrete
hash produce the same `Seconded` payload. -/
theorem C10_witness :
    (⟨[0]⟩ : AbridgedCandidateReceipt) ≠ ⟨[1000003]⟩ ∧
    natEnv.hashACR ⟨[0]⟩ = natEnv.hashACR ⟨[1000003]⟩ ∧
    Statement.signing_payload natEnv (.Seconded ⟨[0]⟩) 0 =
      Statement.signing_payload natEnv (.Seconded ⟨[1000003]⟩) 0 :=
  ⟨by decide, by decide,
    C10_seconded_commits_to_hash natEnv ⟨[0]⟩ ⟨[1000003]⟩ 0 (by decide)⟩

end Spec2Proof
